import Mathlib

/-!
Verification of the invoice-processing core (`src/core/data_processor.py`).

The pandas `DataFrame` held by `DataProcessor` is embedded as `Dataset`: an
ordered list of column names together with an ordered list of rows, each row an
ordered list of cells.  A cell is a number (embedded as `ℚ`; the spreadsheet
values are in-memory numbers whose exact machine representation never matters
to the properties below), a text string, or null (pandas `NaN`/`None`).

Python string operations used by the source (`in` for substring tests,
`str.strip`, `str(...)`) are embedded as structurally recursive functions over
`List Char` so that every definition evaluates inside the kernel.
-/

/-- Cell of a data frame: numeric, text, or empty/null (pandas `NaN`). -/
inductive Cell where
  | num (q : ℚ)
  | str (s : String)
  | null
deriving DecidableEq, Repr

/-- Does the second character list start with the first one? (`startswith`). -/
def startsWithChars : List Char → List Char → Bool
  | [], _ => true
  | _ :: _, [] => false
  | p :: ps, c :: cs => p == c && startsWithChars ps cs

/-- Does `pat` occur as a contiguous sublist of the given list?  This is
the Python substring operator `pat in s`; in particular the empty pattern occurs
in every string. -/
def occursInChars (pat : List Char) : List Char → Bool
  | [] => pat.isEmpty
  | c :: cs => startsWithChars pat (c :: cs) || occursInChars pat cs

/-- The Python `pat in s` substring test on strings. -/
def containsSub (s pat : String) : Bool :=
  occursInChars pat.data s.data

/-- Drop leading whitespace characters. -/
def dropWhileWsChars : List Char → List Char
  | [] => []
  | c :: cs => if c.isWhitespace then dropWhileWsChars cs else c :: cs

/-- Python `str.strip()`: remove leading and trailing whitespace. -/
def strTrim (s : String) : String :=
  String.mk ((dropWhileWsChars ((dropWhileWsChars s.data).reverse)).reverse)

/-- Python `str(...)` applied to a cell value.  pandas renders `NaN` as
`"nan"`; for numbers we use the decimal representation of the rational (the
exact digit string of a number never matters below: the only keyword tests are
against non-numeric keywords). -/
def cellToStr : Cell → String
  | .num q => toString q
  | .str s => s
  | .null => "nan"

/-- In-memory table: ordered column names and ordered rows of cells
(`pandas.DataFrame`).  The dataset invariant of the data model is that every
row has exactly one cell per column. -/
structure Dataset where
  cols : List String
  rows : List (List Cell)
deriving DecidableEq, Repr

/-- pandas `DataFrame.empty`: true when there are no rows or no columns. -/
def datasetEmpty (d : Dataset) : Bool :=
  d.rows.isEmpty || d.cols.isEmpty

/-- Values of the named column over the given rows (`df[col]` restricted to
`rows`); columns are addressed by the position of the name in `cols`. -/
def colValuesOn (rows : List (List Cell)) (cols : List String) (name : String) : List Cell :=
  rows.map (fun r => r.getD (cols.indexOf name) Cell.null)

/-- Values of the named column of a dataset (`df[col]`). -/
def columnValues (d : Dataset) (name : String) : List Cell :=
  colValuesOn d.rows d.cols name

/-- Is the cell numeric or null?  A pandas column has numeric dtype exactly
when it holds no text cell (all-null columns read from a sheet are float
columns), and the dtype is fixed at frame construction and preserved by row
selection, so `pd.api.types.is_numeric_dtype` is a function of the full
cells of the whole column. -/
def Cell.isNumOrNull : Cell → Bool
  | .str _ => false
  | _ => true

/-- `pd.api.types.is_numeric_dtype(df[col])` for a column of a dataset. -/
def isNumericCol (d : Dataset) (name : String) : Bool :=
  (columnValues d name).all Cell.isNumOrNull

/-- Numeric content of a cell, if any. -/
def Cell.toNum : Cell → Option ℚ
  | .num q => some q
  | _ => none

/-- pandas `Series.sum()`: sum of the non-null values, `0` when none. -/
def sumNonNull (cells : List Cell) : ℚ :=
  (cells.filterMap Cell.toNum).sum

/-- pandas `df.at[row, name] = v` on one row: replace the cell in position of
column `name`. -/
def setCellByName (cols : List String) (row : List Cell) (name : String) (v : Cell) : List Cell :=
  List.zipWith (fun c x => if c = name then v else x) cols row

/-- The fixed keyword list of `identify_summary_row`. -/
def summary_keywords : List String :=
  ["合计", "总计", "小计", "Total", "Sum"]

/-- Inner loop of `identify_summary_row`: does any cell of the row, rendered
with `str(...)` and stripped, contain one of the keywords as a substring? -/
def rowHasSummaryKeyword (row : List Cell) : Bool :=
  row.any (fun c => summary_keywords.any (fun kw => containsSub (strTrim (cellToStr c)) kw))

/-- Outer loop of `identify_summary_row`: index of the first row whose cells
mention a summary keyword, scanning rows in order. -/
def findSummaryRow : List (List Cell) → Option Nat
  | [] => none
  | r :: rs =>
    if rowHasSummaryKeyword r then some 0
    else (findSummaryRow rs).map (· + 1)

/-- `DataProcessor.identify_summary_row` on a given data frame: `none` is the
failure result on an empty frame, otherwise `some` of the optional row index
(the source reports `has_summary_row = False` when no row qualifies). -/
def identify_summary_row (d : Dataset) : Option (Option Nat) :=
  if datasetEmpty d then none else some (findSummaryRow d.rows)

/-- Core of `DataProcessor.update_summary_row` acting on a data frame: locate
the summary row; if none, the frame is returned unchanged; otherwise recompute
each requested column that is present and of numeric dtype as the sum of that
column over the data rows (all rows except the summary row) and write the sums
into the summary row. -/
def update_summary_row_on (columns_to_recalculate : List String) (d : Dataset) : Dataset :=
  match identify_summary_row d with
  | some (some i) =>
    let dataRows := d.rows.eraseIdx i
    let updCols := columns_to_recalculate.filter
      (fun c => d.cols.contains c && isNumericCol d c)
    let newRow := updCols.foldl
      (fun row c => setCellByName d.cols row c (Cell.num (sumNonNull (colValuesOn dataRows d.cols c))))
      (d.rows.getD i [])
    { d with rows := d.rows.set i newRow }
  | _ => d

/-- Error kinds of `get_column_sum` (the source reports them as distinct
message strings). -/
inductive SumError where
  | columnNotFound
  | notNumeric
  | noValidData
deriving DecidableEq, Repr

/-- Result record of `get_column_sum`. -/
structure SumStats where
  sum : ℚ
  total_count : Nat
  valid_count : Nat
  null_count : Nat
  average : ℚ
deriving DecidableEq, Repr

/-- `DataProcessor.get_column_sum` on a given data frame. -/
def get_column_sum (d : Dataset) (column_name : String) : Except SumError SumStats :=
  if d.cols.contains column_name = false then .error .columnNotFound
  else if isNumericCol d column_name = false then .error .notNumeric
  else
    let col := columnValues d column_name
    let total_count := col.length
    let null_count := col.countP (fun c => c == Cell.null)
    let valid_count := total_count - null_count
    if valid_count = 0 then .error .noValidData
    else
      let col_sum := sumNonNull col
      .ok ⟨col_sum, total_count, valid_count, null_count, col_sum / (valid_count : ℚ)⟩

/-- Inner loop of `apply_template` for one template name that did not match
exactly: scan the available columns in order and select the first one related
to the template name by substring containment in either direction, skipping
the append when that column was already selected; the Python loop `break`s
right after the first related column. -/
def fuzzyScan (matched : List String) (template_col : String) : List String → List String
  | [] => matched
  | a :: rest =>
    if containsSub a template_col || containsSub template_col a then
      if matched.contains a then matched else matched ++ [a]
    else fuzzyScan matched template_col rest

/-- Column matching of `DataProcessor.apply_template`: for each template name
in order, take it when it occurs verbatim among the available columns,
otherwise fuzzy-scan the available columns. -/
def apply_template_match (template_columns available_columns : List String) : List String :=
  template_columns.foldl
    (fun matched t =>
      if available_columns.contains t then matched ++ [t]
      else fuzzyScan matched t available_columns)
    []

/-- A Python `dict[str, str]` as an insertion-ordered association list with
unique keys. -/
abbrev GoodsMap := List (String × String)

/-- Python `m[k] = v`: overwrite in place when the key exists, append
otherwise. -/
def dictInsert (m : GoodsMap) (k v : String) : GoodsMap :=
  if m.any (fun p => p.1 = k) then m.map (fun p => if p.1 = k then (k, v) else p)
  else m ++ [(k, v)]

/-- Python `m.get(k)`. -/
def dictLookup (m : GoodsMap) (k : String) : Option String :=
  (m.find? (fun p => p.1 = k)).map (·.2)

/-- Keep the first occurrence of each cell value (pandas `Series.unique`). -/
def dedupKeepFirst : List Cell → List Cell → List Cell
  | _, [] => []
  | seen, c :: cs =>
    if seen.contains c then dedupKeepFirst seen cs
    else c :: dedupKeepFirst (c :: seen) cs

/-- pandas `series.dropna().unique()`: the distinct non-null values in first
occurrence order. -/
def dropNaUnique (cells : List Cell) : List Cell :=
  dedupKeepFirst [] (cells.filter (fun c => !(c == Cell.null)))

/-- Lookup-building core of `DataProcessor.extract_goods_names_by_invoice`,
given the invoice frame, the detail frame and the two column names: for each
distinct non-null invoice number of the invoice frame, select the detail rows
whose key cell equals it (pandas `==` on the raw cell values) and, when there
is a first match whose goods cell is non-null with non-empty stripped text,
record `str(key) ↦ str(value).strip()`. -/
def extract_goods_names (invoice_df detail_df : Dataset)
    (invoice_column goods_column : String) : GoodsMap :=
  if !(invoice_df.cols.contains invoice_column) then []
  else if !(detail_df.cols.contains invoice_column) then []
  else if !(detail_df.cols.contains goods_column) then []
  else
    (dropNaUnique (columnValues invoice_df invoice_column)).foldl
      (fun m k =>
        match detail_df.rows.find?
            (fun r => r.getD (detail_df.cols.indexOf invoice_column) Cell.null == k) with
        | none => m
        | some r =>
          let v := r.getD (detail_df.cols.indexOf goods_column) Cell.null
          if !(v == Cell.null) && !(strTrim (cellToStr v) == "") then
            dictInsert m (cellToStr k) (strTrim (cellToStr v))
          else m)
      []

/-- The lookup construction as the specification words it (for comparison with
`extract_goods_names`): a detail row matches a key when the two cells are
equal "after normalizing both sides to text and trimming". -/
def extract_goods_names_specTextEq (invoice_df detail_df : Dataset)
    (invoice_column goods_column : String) : GoodsMap :=
  if !(invoice_df.cols.contains invoice_column) then []
  else if !(detail_df.cols.contains invoice_column) then []
  else if !(detail_df.cols.contains goods_column) then []
  else
    (dropNaUnique (columnValues invoice_df invoice_column)).foldl
      (fun m k =>
        match detail_df.rows.find?
            (fun r => strTrim (cellToStr (r.getD (detail_df.cols.indexOf invoice_column) Cell.null))
                        == strTrim (cellToStr k)) with
        | none => m
        | some r =>
          let v := r.getD (detail_df.cols.indexOf goods_column) Cell.null
          if !(v == Cell.null) && !(strTrim (cellToStr v) == "") then
            dictInsert m (cellToStr k) (strTrim (cellToStr v))
          else m)
      []

/-- Join-key auto-selection shared by the cross-sheet methods: prefer the
column `数电发票号码`, fall back to `发票号码`, otherwise fail. -/
def chooseInvoiceColumn (df : Dataset) : Option String :=
  if df.cols.contains "数电发票号码" then some "数电发票号码"
  else if df.cols.contains "发票号码" then some "发票号码"
  else none

/-- pandas `df[name] = vals`: overwrite the column in place when it exists,
append it as the last column otherwise. -/
def setColumn (df : Dataset) (name : String) (vals : List Cell) : Dataset :=
  if df.cols.contains name then
    { cols := df.cols
      rows := (df.rows.zip vals).map (fun p => setCellByName df.cols p.1 name p.2) }
  else
    { cols := df.cols ++ [name]
      rows := (df.rows.zip vals).map (fun p => p.1 ++ [p.2]) }

/-- One record of `processing_history`: either a record appended by
`process_data` or one appended by `process_cross_sheet_association`. -/
inductive HistoryRecord where
  | proc (action : String) (deleted_columns : List String)
      (original_columns_count remaining_columns_count data_rows : Nat)
  | crossSheet (invoice_sheet detail_sheet : String) (matched_invoices : Nat)
deriving DecidableEq, Repr

/-- The mutable state of a `DataProcessor` instance. -/
structure Session where
  original_data : Option Dataset
  processed_data : Option Dataset
  columns_to_delete : List String
  columns_to_recalculate : List String
  processing_history : List HistoryRecord
  cross_sheet_data : List (String × Dataset)
deriving DecidableEq, Repr

/-- A freshly constructed `DataProcessor`. -/
def emptySession : Session :=
  { original_data := none, processed_data := none, columns_to_delete := []
    columns_to_recalculate := [], processing_history := [], cross_sheet_data := [] }

/-- `DataProcessor.load_data`: reject an empty frame before any assignment,
otherwise store copies of it as original and processed data. -/
def load_data (s : Session) (data : Dataset) : Bool × Session :=
  if datasetEmpty data then (false, s)
  else (true, { s with original_data := some data, processed_data := some data })

/-- `DataProcessor.set_columns_to_delete`: requires loaded data; keeps only the
requested names that are present (missing ones are only warned about). -/
def set_columns_to_delete (s : Session) (columns : List String) : Bool × Session :=
  match s.original_data with
  | none => (false, s)
  | some d =>
    (true, { s with columns_to_delete := columns.filter (fun c => d.cols.contains c) })

/-- `DataProcessor.set_columns_to_recalculate`: requires loaded data; keeps
only the requested names that are present and of numeric dtype. -/
def set_columns_to_recalculate (s : Session) (columns : List String) : Bool × Session :=
  match s.original_data with
  | none => (false, s)
  | some d =>
    (true, { s with columns_to_recalculate :=
      columns.filter (fun c => d.cols.contains c && isNumericCol d c) })

/-- `DataProcessor.validate_deletion`. -/
def validate_deletion (s : Session) : Bool × String :=
  match s.original_data with
  | none => (false, "没有加载数据")
  | some d =>
    if s.columns_to_delete.isEmpty then (true, "无需删除列")
    else
      let remaining := d.cols.filter (fun c => !(s.columns_to_delete.contains c))
      if remaining.isEmpty then (false, "不能删除所有列，请至少保留一列数据")
      else
        let invalid := s.columns_to_delete.filter (fun c => !(d.cols.contains c))
        if invalid.isEmpty then (true, "验证通过")
        else (false, "以下列不存在: " ++ String.intercalate ", " invalid)

/-- Column selection `df[remaining]` used by `process_data` and
`generate_preview`: the new frame holds the listed columns in the listed
order, each row keeping its cell of every kept column. -/
def selectColumns (d : Dataset) (keep : List String) : Dataset :=
  { cols := keep
    rows := d.rows.map (fun r => keep.map (fun c => r.getD (d.cols.indexOf c) Cell.null)) }

/-- `DataProcessor.generate_preview`: the first `preview_rows` rows before and
after applying the current deletion plan; no session field is assigned. -/
def generate_preview (s : Session) (preview_rows : Nat) : Dataset × Dataset :=
  match s.original_data with
  | none => (⟨[], []⟩, ⟨[], []⟩)
  | some d =>
    let remaining := d.cols.filter (fun c => !(s.columns_to_delete.contains c))
    ({ d with rows := d.rows.take preview_rows }
      , { selectColumns d remaining with rows := (selectColumns d remaining).rows.take preview_rows })

/-- Recalculation tail of `process_data`: when a recalculation plan is set and
some of its columns survive in the processed frame, rewrite the summary row of
the processed frame. -/
def applyRecalc (s : Session) : Session :=
  if s.columns_to_recalculate.isEmpty then s
  else
    match s.processed_data with
    | none => s
    | some pd =>
      let remaining_recalc := s.columns_to_recalculate.filter (fun c => pd.cols.contains c)
      if remaining_recalc.isEmpty then s
      else { s with processed_data := some (update_summary_row_on remaining_recalc pd) }

/-- `DataProcessor.process_data`: validate and apply the deletion plan (the
validation failure path returns before any assignment), append a history
record, then run the recalculation tail. -/
def process_data (s : Session) : Bool × Session :=
  match s.original_data with
  | none => (false, s)
  | some od =>
    if s.columns_to_delete.isEmpty = false then
      if (validate_deletion s).1 = false then (false, s)
      else
        let remaining := od.cols.filter (fun c => !(s.columns_to_delete.contains c))
        let pd := selectColumns od remaining
        let rec1 : HistoryRecord :=
          .proc "delete_columns" s.columns_to_delete od.cols.length pd.cols.length pd.rows.length
        (true, applyRecalc { s with processed_data := some pd
                                    processing_history := s.processing_history ++ [rec1] })
    else
      let rec1 : HistoryRecord :=
        .proc "no_deletion" [] od.cols.length od.cols.length od.rows.length
      (true, applyRecalc { s with processed_data := some od
                                  processing_history := s.processing_history ++ [rec1] })

/-- `DataProcessor.get_processed_data` / `get_original_data` return copies of
the stored frames; copies are equal as values. -/
def get_original_data (s : Session) : Option Dataset := s.original_data

/-- `DataProcessor.reset`: revert the processed copy to the original, clear
the deletion plan and the history (`columns_to_recalculate` is not assigned by
the source). -/
def reset (s : Session) : Session :=
  { s with processed_data := s.original_data
           columns_to_delete := []
           processing_history := [] }

/-- `DataProcessor.update_summary_row` with `data=None`: operate on the
processed frame and store the result back (when no summary row is found the
source returns success leaving `processed_data` untouched, which equals
storing the unchanged frame). -/
def update_summary_row (s : Session) (columns_to_recalculate : List String) : Bool × Session :=
  match s.processed_data with
  | none => (false, s)
  | some pd => (true, { s with processed_data := some (update_summary_row_on columns_to_recalculate pd) })

/-- `DataProcessor.load_cross_sheet_data`. -/
def load_cross_sheet_data (s : Session) (sheet_data : List (String × Dataset)) : Bool × Session :=
  (true, { s with cross_sheet_data := sheet_data })

/-- Sheet lookup in `cross_sheet_data` (a Python dict keyed by sheet name). -/
def sheetLookup (s : Session) (name : String) : Option Dataset :=
  ((s.cross_sheet_data).find? (fun p => p.1 = name)).map (·.2)

/-- Replace a sheet in `cross_sheet_data`. -/
def sheetStore (s : Session) (name : String) (df : Dataset) : Session :=
  { s with cross_sheet_data :=
      if s.cross_sheet_data.any (fun p => p.1 = name) then
        s.cross_sheet_data.map (fun p => if p.1 = name then (name, df) else p)
      else s.cross_sheet_data ++ [(name, df)] }

/-- `DataProcessor.extract_goods_names_by_invoice` with `invoice_column=None`
(the auto-selection path used by `process_cross_sheet_association`). -/
def extract_goods_names_by_invoice (s : Session)
    (invoice_sheet_name detail_sheet_name : String)
    (goods_column : String := "货物或应税劳务名称") : GoodsMap :=
  if s.cross_sheet_data.isEmpty then []
  else
    match sheetLookup s invoice_sheet_name, sheetLookup s detail_sheet_name with
    | some invoice_df, some detail_df =>
      match chooseInvoiceColumn invoice_df with
      | none => []
      | some invoice_column => extract_goods_names invoice_df detail_df invoice_column goods_column
    | _, _ => []

/-- `DataProcessor.add_goods_names_to_invoice_sheet` with `invoice_column=None`:
append (or overwrite) the goods column on the invoice sheet, store the
enriched sheet in `cross_sheet_data`, and replace `original_data` and
`processed_data` with it whenever their row counts coincide with it. -/
def add_goods_names_to_invoice_sheet (s : Session) (invoice_sheet_name : String)
    (invoice_goods_map : GoodsMap)
    (new_column_name : String := "货物或应税劳务名称") : Bool × Session :=
  match sheetLookup s invoice_sheet_name with
  | none => (false, s)
  | some invoice_df =>
    match chooseInvoiceColumn invoice_df with
    | none => (false, s)
    | some invoice_column =>
      let goods_names_list := invoice_df.rows.map (fun r =>
        let c := r.getD (invoice_df.cols.indexOf invoice_column) Cell.null
        let invoice_num := if c == Cell.null then "" else cellToStr c
        match dictLookup invoice_goods_map invoice_num with
        | some g => Cell.str g
        | none => Cell.str "")
      let new_df := setColumn invoice_df new_column_name goods_names_list
      let s1 := sheetStore s invoice_sheet_name new_df
      let s2 :=
        match s1.original_data with
        | some od => if od.rows.length = new_df.rows.length
            then { s1 with original_data := some new_df } else s1
        | none => s1
      let s3 :=
        match s2.processed_data with
        | some pd => if pd.rows.length = new_df.rows.length
            then { s2 with processed_data := some new_df } else s2
        | none => s2
      (true, s3)

/-- `DataProcessor.process_cross_sheet_association`: build the lookup, fail
when it is empty, otherwise enrich the invoice sheet and append a history
record. -/
def process_cross_sheet_association (s : Session)
    (invoice_sheet_name detail_sheet_name : String) : Bool × Session :=
  let invoice_goods_map := extract_goods_names_by_invoice s invoice_sheet_name detail_sheet_name
  if invoice_goods_map.isEmpty then (false, s)
  else
    let r := add_goods_names_to_invoice_sheet s invoice_sheet_name invoice_goods_map
    if r.1 then
      (true, { r.2 with processing_history := r.2.processing_history ++
        [.crossSheet invoice_sheet_name detail_sheet_name invoice_goods_map.length] })
    else r

/-- The operations a caller can perform on a loaded session, as named by the
state-machine section of the specification.  `validate`, `preview`,
`summaryQuery` (`get_processing_summary`), `columnSum` (`get_column_sum`) and
`identifySummary` (`identify_summary_row`) assign no session field in the
source, so their step is the identity on the state. -/
inductive Op where
  | setDelete (columns : List String)
  | setRecalc (columns : List String)
  | validate
  | preview (n : Nat)
  | process
  | summaryQuery
  | columnSum (name : String)
  | identifySummary
  | updateSummary (columns : List String)
  | resetOp
  | loadCrossSheet (sheets : List (String × Dataset))
  | crossAssoc (invoice_sheet detail_sheet : String)

/-- State transition of one operation. -/
def applyOp (s : Session) : Op → Session
  | .setDelete columns => (set_columns_to_delete s columns).2
  | .setRecalc columns => (set_columns_to_recalculate s columns).2
  | .validate => s
  | .preview _ => s
  | .process => (process_data s).2
  | .summaryQuery => s
  | .columnSum _ => s
  | .identifySummary => s
  | .updateSummary columns => (update_summary_row s columns).2
  | .resetOp => reset s
  | .loadCrossSheet sheets => (load_cross_sheet_data s sheets).2
  | .crossAssoc a b => (process_cross_sheet_association s a b).2

/-- State after a sequence of operations. -/
def applyOps (s : Session) (ops : List Op) : Session :=
  ops.foldl applyOp s

/-- Is the operation the cross-sheet association step? -/
def Op.isCrossAssoc : Op → Bool
  | .crossAssoc _ _ => true
  | _ => false

/-! ### General helper lemmas -/

theorem getD_map_indexOf {α : Type} (f : String → α) (dflt : α) :
    ∀ (l : List String) (c : String), c ∈ l →
      (l.map f).getD (l.indexOf c) dflt = f c := by
  intro l
  induction l with
  | nil => intro c hc; cases hc
  | cons a t ih =>
    intro c hc
    by_cases hac : a = c
    · subst hac
      simp [List.indexOf_cons_self]
    · have hct : c ∈ t := by
        rcases List.mem_cons.mp hc with h | h
        · exact absurd h.symm hac
        · exact h
      have : List.indexOf c (a :: t) = List.indexOf c t + 1 :=
        List.indexOf_cons_ne _ hac
      simp only [List.map_cons, this, List.getD_cons_succ]
      exact ih c hct

theorem length_filter_add_length_filter_not {α : Type} (p : α → Bool) (l : List α) :
    (l.filter p).length + (l.filter (fun a => !p a)).length = l.length := by
  induction l with
  | nil => simp
  | cons a t ih =>
    cases hp : p a <;> simp [List.filter_cons, hp] <;> omega

theorem length_filter_mem_eq {P cols : List String}
    (hPn : P.Nodup) (hcn : cols.Nodup) (hsub : ∀ c ∈ P, c ∈ cols) :
    (cols.filter (fun c => P.contains c)).length = P.length := by
  have hperm : (cols.filter (fun c => P.contains c)).Perm P := by
    refine (List.perm_ext_iff_of_nodup (hcn.filter _) hPn).2 (fun a => ?_)
    simp only [List.mem_filter, List.contains, List.elem_eq_mem, decide_eq_true_eq]
    exact ⟨fun h => h.2, fun h => ⟨hsub a h, h⟩⟩
  exact hperm.length_eq

theorem selectColumns_cols (d : Dataset) (keep : List String) :
    (selectColumns d keep).cols = keep := rfl

theorem selectColumns_rows_length (d : Dataset) (keep : List String) :
    (selectColumns d keep).rows.length = d.rows.length := by
  simp [selectColumns]

theorem columnValues_selectColumns (d : Dataset) (keep : List String) (c : String)
    (hc : c ∈ keep) :
    columnValues (selectColumns d keep) c = columnValues d c := by
  unfold columnValues colValuesOn selectColumns
  simp only [List.map_map]
  refine List.map_congr_left (fun r _ => ?_)
  exact getD_map_indexOf (fun c' => r.getD (d.cols.indexOf c') Cell.null) Cell.null keep c hc

theorem setCellByName_length (cols : List String) (row : List Cell) (name : String) (v : Cell)
    (h : row.length = cols.length) :
    (setCellByName cols row name v).length = cols.length := by
  simp [setCellByName, h]

theorem getD_zipWith (g : String → Cell → Cell) :
    ∀ (cs : List String) (row : List Cell) (p : Nat), p < cs.length →
      row.length = cs.length →
      (List.zipWith g cs row).getD p Cell.null = g (cs.getD p "") (row.getD p Cell.null) := by
  intro cs
  induction cs with
  | nil => intro row p hp _; cases hp
  | cons c cs' ih =>
    intro row p hp hlen
    cases row with
    | nil => simp at hlen
    | cons x row' =>
      cases p with
      | zero => rfl
      | succ p' =>
        simp only [List.zipWith_cons_cons, List.getD_cons_succ]
        exact ih row' p' (Nat.lt_of_succ_lt_succ hp) (by simpa using hlen)

theorem getD_setCellByName (cols : List String) (row : List Cell) (name : String) (v : Cell)
    (p : Nat) (hp : p < cols.length) (hlen : row.length = cols.length) :
    (setCellByName cols row name v).getD p Cell.null =
      if cols.getD p "" = name then v else row.getD p Cell.null := by
  unfold setCellByName
  exact getD_zipWith (fun c x => if c = name then v else x) cols row p hp hlen

theorem foldl_setCellByName (cols : List String) (f : String → Cell) :
    ∀ (upd : List String) (row : List Cell), row.length = cols.length →
      ∀ p, p < cols.length →
      ((upd.foldl (fun r c => setCellByName cols r c (f c)) row).getD p Cell.null)
        = if cols.getD p "" ∈ upd then f (cols.getD p "") else row.getD p Cell.null := by
  intro upd
  induction upd with
  | nil => intro row _ p _; simp
  | cons u us ih =>
    intro row hlen p hp
    have hlen' : (setCellByName cols row u (f u)).length = cols.length :=
      setCellByName_length cols row u (f u) hlen
    simp only [List.foldl_cons]
    rw [ih (setCellByName cols row u (f u)) hlen' p hp]
    rw [getD_setCellByName cols row u (f u) p hp hlen]
    by_cases hu : cols.getD p "" = u
    · have hcons : cols.getD p "" ∈ u :: us := by rw [hu]; exact List.mem_cons_self u us
      rw [if_pos hcons]
      by_cases hmem : cols.getD p "" ∈ us
      · rw [if_pos hmem]
      · rw [if_neg hmem, if_pos hu, hu]
    · by_cases hmem : cols.getD p "" ∈ us
      · rw [if_pos hmem, if_pos (List.mem_cons_of_mem u hmem)]
      · have hnc : cols.getD p "" ∉ u :: us := by
          intro hc
          rcases List.mem_cons.mp hc with h | h
          · exact hu h
          · exact hmem h
        rw [if_neg hmem, if_neg hu, if_neg hnc]

theorem foldl_setCellByName_length (cols : List String) (f : String → Cell) :
    ∀ (upd : List String) (row : List Cell), row.length = cols.length →
      (upd.foldl (fun r c => setCellByName cols r c (f c)) row).length = cols.length := by
  intro upd
  induction upd with
  | nil => intro row hlen; simpa using hlen
  | cons u us ih =>
    intro row hlen
    simp only [List.foldl_cons]
    exact ih _ (setCellByName_length cols row u (f u) hlen)

theorem findSummaryRow_some :
    ∀ (rows : List (List Cell)) (i : Nat), findSummaryRow rows = some i →
      i < rows.length ∧ rowHasSummaryKeyword (rows.getD i []) = true ∧
        ∀ j, j < i → rowHasSummaryKeyword (rows.getD j []) = false := by
  intro rows
  induction rows with
  | nil => intro i h; simp [findSummaryRow] at h
  | cons r rs ih =>
    intro i h
    unfold findSummaryRow at h
    by_cases hr : rowHasSummaryKeyword r
    · simp only [hr, if_pos] at h
      cases h
      exact ⟨Nat.succ_pos _, by simpa using hr, fun j hj => absurd hj (Nat.not_lt_zero j)⟩
    · simp only [hr, if_neg, Bool.false_eq_true, not_false_iff] at h
      rcases Option.map_eq_some'.mp h with ⟨i', hi', rfl⟩
      obtain ⟨hlt, hkey, hbefore⟩ := ih i' hi'
      refine ⟨Nat.succ_lt_succ hlt, by simpa using hkey, fun j hj => ?_⟩
      cases j with
      | zero => simpa using (Bool.not_eq_true _).mp hr
      | succ j' =>
        simpa using hbefore j' (Nat.lt_of_succ_lt_succ hj)

theorem findSummaryRow_none :
    ∀ (rows : List (List Cell)), findSummaryRow rows = none →
      ∀ r ∈ rows, rowHasSummaryKeyword r = false := by
  intro rows
  induction rows with
  | nil => intro _ r hr; cases hr
  | cons r rs ih =>
    intro h r' hr'
    unfold findSummaryRow at h
    by_cases hr : rowHasSummaryKeyword r
    · simp [hr] at h
    · simp only [hr, if_neg, Bool.false_eq_true, not_false_iff, Option.map_eq_none'] at h
      rcases List.mem_cons.mp hr' with rfl | hmem
      · exact (Bool.not_eq_true _).mp hr
      · exact ih h r' hmem

theorem find?_map_replace_self (k v : String) :
    ∀ m : GoodsMap, m.any (fun p => p.1 = k) = true →
      (m.map (fun p => if p.1 = k then (k, v) else p)).find? (fun p => p.1 = k) = some (k, v) := by
  intro m
  induction m with
  | nil => intro h; simp at h
  | cons p m' ih =>
    intro h
    by_cases hp : p.1 = k
    · simp only [List.map_cons, if_pos hp]
      exact List.find?_cons_of_pos _ (by simp)
    · simp only [List.map_cons, if_neg hp]
      rw [List.find?_cons_of_neg _ (by simpa using hp)]
      apply ih
      simpa [hp] using h

theorem find?_map_replace_ne (k v s : String) (hs : s ≠ k) :
    ∀ m : GoodsMap,
      (m.map (fun p => if p.1 = k then (k, v) else p)).find? (fun p => p.1 = s)
        = m.find? (fun p => p.1 = s) := by
  intro m
  induction m with
  | nil => simp
  | cons p m' ih =>
    simp only [List.map_cons]
    by_cases hp : p.1 = k
    · have hks : ¬((k, v).1 = s) := fun h => hs h.symm
      have hps : ¬(p.1 = s) := by rw [hp]; exact fun h => hs h.symm
      rw [if_pos hp, List.find?_cons_of_neg _ (by simpa using hks),
          List.find?_cons_of_neg _ (by simpa using hps)]
      exact ih
    · rw [if_neg hp]
      by_cases hps : p.1 = s
      · rw [List.find?_cons_of_pos _ (by simpa using hps),
            List.find?_cons_of_pos _ (by simpa using hps)]
      · rw [List.find?_cons_of_neg _ (by simpa using hps),
            List.find?_cons_of_neg _ (by simpa using hps)]
        exact ih

theorem dictLookup_dictInsert (m : GoodsMap) (k v s : String) :
    dictLookup (dictInsert m k v) s = if s = k then some v else dictLookup m s := by
  unfold dictInsert dictLookup
  cases hany : m.any (fun p => p.1 = k) with
  | true =>
    rw [if_pos rfl]
    by_cases hs : s = k
    · rw [if_pos hs, hs, find?_map_replace_self k v m hany]
      rfl
    · rw [if_neg hs, find?_map_replace_ne k v s hs m]
  | false =>
    rw [if_neg (by simp)]
    rw [List.find?_append]
    by_cases hs : s = k
    · have hnone : m.find? (fun p => decide (p.1 = s)) = none := by
        rw [List.find?_eq_none]
        intro x hx hpx
        have hxk : x.1 = k := by
          have := of_decide_eq_true hpx
          rw [← hs]
          exact this
        have : m.any (fun p => p.1 = k) = true :=
          List.any_eq_true.mpr ⟨x, hx, by simpa using hxk⟩
        rw [hany] at this
        cases this
      rw [hnone, if_pos hs]
      simp [hs]
    · have hsingle : ([(k, v)].find? (fun p => decide (p.1 = s))) = none := by
        have : ¬((k, v).1 = s) := fun h => hs h.symm
        simp [this]
      rw [hsingle, if_neg hs]
      simp

theorem foldl_goods_lookup_of_not_mem (valOf : Cell → Option String) :
    ∀ (keys : List Cell) (m : GoodsMap) (s : String),
      (∀ k ∈ keys, cellToStr k ≠ s) →
      dictLookup (keys.foldl (fun acc k =>
          match valOf k with
          | some v => dictInsert acc (cellToStr k) v
          | none => acc) m) s = dictLookup m s := by
  intro keys
  induction keys with
  | nil => intro m s _; rfl
  | cons k ks ih =>
    intro m s hne
    simp only [List.foldl_cons]
    rw [ih _ s (fun k' hk' => hne k' (List.mem_cons_of_mem k hk'))]
    cases hv : valOf k with
    | none => rfl
    | some v =>
      rw [dictLookup_dictInsert]
      rw [if_neg (fun h => hne k (List.mem_cons_self k ks) h.symm)]

theorem mem_dedupKeepFirst :
    ∀ (l seen : List Cell) (x : Cell),
      x ∈ dedupKeepFirst seen l ↔ (x ∈ l ∧ x ∉ seen) := by
  intro l
  induction l with
  | nil => intro seen x; simp [dedupKeepFirst]
  | cons c cs ih =>
    intro seen x
    unfold dedupKeepFirst
    cases hc : seen.contains c with
    | true =>
      rw [if_pos rfl]
      have hcseen : c ∈ seen := List.elem_iff.mp hc
      rw [ih seen x]
      constructor
      · rintro ⟨hx, hns⟩
        exact ⟨List.mem_cons_of_mem c hx, hns⟩
      · rintro ⟨hx, hns⟩
        rcases List.mem_cons.mp hx with rfl | hx'
        · exact absurd hcseen hns
        · exact ⟨hx', hns⟩
    | false =>
      rw [if_neg (by simp)]
      have hcseen : c ∉ seen := by
        intro hmem
        have h2 : seen.contains c = true := List.elem_iff.mpr hmem
        rw [hc] at h2
        cases h2
      constructor
      · intro hx
        rcases List.mem_cons.mp hx with rfl | hx'
        · exact ⟨List.mem_cons_self x cs, hcseen⟩
        · obtain ⟨hxcs, hxs⟩ := (ih (c :: seen) x).mp hx'
          exact ⟨List.mem_cons_of_mem c hxcs, fun hm => hxs (List.mem_cons_of_mem c hm)⟩
      · rintro ⟨hx, hns⟩
        rcases List.mem_cons.mp hx with rfl | hx'
        · exact List.mem_cons_self x _
        · by_cases hxc : x = c
          · subst hxc
            exact List.mem_cons_self x _
          · refine List.mem_cons_of_mem c ((ih (c :: seen) x).mpr ⟨hx', fun hm => ?_⟩)
            rcases List.mem_cons.mp hm with h | h
            · exact hxc h
            · exact hns h

theorem dedupKeepFirst_nodup :
    ∀ (l seen : List Cell), (dedupKeepFirst seen l).Nodup := by
  intro l
  induction l with
  | nil => intro seen; simp [dedupKeepFirst]
  | cons c cs ih =>
    intro seen
    unfold dedupKeepFirst
    cases hc : seen.contains c with
    | true => rw [if_pos rfl]; exact ih seen
    | false =>
      rw [if_neg (by simp)]
      refine List.nodup_cons.mpr ⟨fun hmem => ?_, ih (c :: seen)⟩
      have := (mem_dedupKeepFirst cs (c :: seen) c).mp hmem
      exact this.2 (List.mem_cons_self c seen)

theorem dropNaUnique_nodup (cells : List Cell) : (dropNaUnique cells).Nodup :=
  dedupKeepFirst_nodup _ []

theorem mem_dropNaUnique (cells : List Cell) (x : Cell) :
    x ∈ dropNaUnique cells ↔ (x ∈ cells ∧ x ≠ Cell.null) := by
  unfold dropNaUnique
  rw [mem_dedupKeepFirst]
  simp [List.mem_filter]

theorem foldl_goods_lookup_of_mem (valOf : Cell → Option String) :
    ∀ (keys : List Cell) (m : GoodsMap) (k : Cell), keys.Nodup → k ∈ keys →
      (∀ k' ∈ keys, cellToStr k' = cellToStr k → k' = k) →
      dictLookup (keys.foldl (fun acc k =>
          match valOf k with
          | some v => dictInsert acc (cellToStr k) v
          | none => acc) m) (cellToStr k) =
        (valOf k).or (dictLookup m (cellToStr k)) := by
  intro keys
  induction keys with
  | nil => intro m k _ hk; cases hk
  | cons a ks ih =>
    intro m k hnd hk huniq
    simp only [List.foldl_cons]
    by_cases hak : a = k
    · subst hak
      have hna : a ∉ ks := (List.nodup_cons.mp hnd).1
      have hrest : ∀ k' ∈ ks, cellToStr k' ≠ cellToStr a := by
        intro k' hk' heq
        have hk'a := huniq k' (List.mem_cons_of_mem a hk') heq
        exact hna (hk'a ▸ hk')
      rw [foldl_goods_lookup_of_not_mem valOf ks _ (cellToStr a) hrest]
      cases hv : valOf a with
      | none => simp [hv]
      | some v =>
        simp only [hv]
        rw [dictLookup_dictInsert]
        simp [Option.or]
    · have hkks : k ∈ ks := by
        rcases List.mem_cons.mp hk with h | h
        · exact absurd h.symm hak
        · exact h
      have hsa : cellToStr a ≠ cellToStr k := by
        intro heq
        exact hak (huniq a (List.mem_cons_self a ks) heq)
      have hstep : dictLookup
          (match valOf a with
           | some v => dictInsert m (cellToStr a) v
           | none => m) (cellToStr k) = dictLookup m (cellToStr k) := by
        cases hv : valOf a with
        | none => rfl
        | some v =>
          rw [dictLookup_dictInsert]
          rw [if_neg (fun h => hsa h.symm)]
      rw [ih _ k (List.nodup_cons.mp hnd).2 hkks
        (fun k' hk' heq => huniq k' (List.mem_cons_of_mem a hk') heq)]
      cases hv : valOf k with
      | none => simp only [hv, Option.none_or]; exact hstep
      | some v => simp [hv, Option.or]

/-! ### Claim C10 -/

/-- C10: loading a dataset with zero rows returns failure and changes nothing:
the session (its original dataset, processed dataset, deletion plan,
recalculation plan and history) is returned exactly as it was. -/
theorem C10_load_empty_rejected_noop (s : Session) (d : Dataset) (h : d.rows = []) :
    load_data s d = (false, s) := by
  have he : datasetEmpty d = true := by
    unfold datasetEmpty
    rw [h]
    rfl
  unfold load_data
  rw [if_pos he]

/-- Witness for C10 at a concrete empty dataset. -/
theorem C10_witness : load_data emptySession ⟨["A"], []⟩ = (false, emptySession) :=
  C10_load_empty_rejected_noop emptySession ⟨["A"], []⟩ rfl

/-! ### Claim C2 -/

/-- C2: when the deletion plan equals the full column set of the loaded
dataset (which has at least one column), validation fails with the
all-columns-removed error, and `process_data` returns failure with the
session — in particular its processed dataset — exactly unchanged: the
validation happens before any assignment. -/
theorem C2_delete_all_columns_rejected (s : Session) (D : Dataset)
    (horig : s.original_data = some D) (hne : D.cols ≠ [])
    (hfull : ∀ c, c ∈ s.columns_to_delete ↔ c ∈ D.cols) :
    validate_deletion s = (false, "不能删除所有列，请至少保留一列数据") ∧
      process_data s = (false, s) := by
  obtain ⟨c0, hc0⟩ := List.exists_mem_of_ne_nil D.cols hne
  have hplan_ne : s.columns_to_delete ≠ [] := by
    intro hnil
    have := (hfull c0).mpr hc0
    rw [hnil] at this
    cases this
  have hplan_isEmpty : s.columns_to_delete.isEmpty = false := by
    cases hp : s.columns_to_delete with
    | nil => exact absurd hp hplan_ne
    | cons a t => rfl
  have hremaining :
      D.cols.filter (fun c => !(s.columns_to_delete.contains c)) = [] := by
    rw [List.filter_eq_nil_iff]
    intro c hc
    have hcplan : c ∈ s.columns_to_delete := (hfull c).mpr hc
    simpa using hcplan
  have hvalidate : validate_deletion s = (false, "不能删除所有列，请至少保留一列数据") := by
    simp only [validate_deletion, horig]
    rw [if_neg (by simp [hplan_isEmpty])]
    rw [hremaining]
    rfl
  refine ⟨hvalidate, ?_⟩
  simp only [process_data, horig]
  rw [if_pos hplan_isEmpty]
  rw [if_pos (by rw [hvalidate])]

/-- Witness for C2 at a concrete loaded session whose plan is the full column
set. -/
theorem C2_witness :
    validate_deletion
        { emptySession with
            original_data := some ⟨["A", "B"], [[.num 1, .num 2]]⟩
            processed_data := some ⟨["A", "B"], [[.num 1, .num 2]]⟩
            columns_to_delete := ["B", "A"] }
      = (false, "不能删除所有列，请至少保留一列数据") :=
  (C2_delete_all_columns_rejected _ ⟨["A", "B"], [[.num 1, .num 2]]⟩ rfl
    (by decide) (fun c => by simp [or_comm])).1

/-! ### Claim C7 -/

/-- C7 counterexample: the template names "AB" and "A" both resolve to the
actual column "A" (the first by fuzzy containment, the second by exact match),
yet the result lists that column twice — the exact-match branch of the source
appends unconditionally, so duplicate selections are not always collapsed. -/
theorem C7_counterexample :
    apply_template_match ["AB", "A"] ["A"] = ["A", "A"] ∧
      ¬ (apply_template_match ["AB", "A"] ["A"]).Nodup :=
  ⟨by decide, by decide⟩

/-- C7 (amended): per template name, an exactly-equal actual column is
selected (and appended unconditionally, so a duplicate arises when it was
already selected); otherwise the first actual column, in order, related by
case-sensitive containment in either direction is selected, skipped if
already selected; a template name matching nothing contributes nothing. -/
theorem C7_template_match_characterization (template_columns available_columns : List String) :
    apply_template_match template_columns available_columns =
      template_columns.foldl
        (fun matched t =>
          if available_columns.contains t then matched ++ [t]
          else
            match available_columns.find? (fun a => containsSub a t || containsSub t a) with
            | some a => if matched.contains a then matched else matched ++ [a]
            | none => matched)
        [] := by
  have hstep : ∀ (matched : List String) (t : String) (l : List String),
      fuzzyScan matched t l =
        match l.find? (fun a => containsSub a t || containsSub t a) with
        | some a => if matched.contains a then matched else matched ++ [a]
        | none => matched := by
    intro matched t l
    induction l with
    | nil => rfl
    | cons a rest ih =>
      unfold fuzzyScan
      by_cases ha : (containsSub a t || containsSub t a) = true
      · have hf : List.find? (fun a => containsSub a t || containsSub t a) (a :: rest)
            = some a := List.find?_cons_of_pos rest ha
        rw [if_pos ha, hf]
      · have hf : List.find? (fun a => containsSub a t || containsSub t a) (a :: rest)
            = List.find? (fun a => containsSub a t || containsSub t a) rest :=
          List.find?_cons_of_neg rest ha
        rw [if_neg ha, hf, ih]
  unfold apply_template_match
  refine List.foldl_ext _ _ [] (fun acc t _ => ?_)
  by_cases hmem : available_columns.contains t = true
  · rw [if_pos hmem, if_pos hmem]
  · rw [if_neg hmem, if_neg hmem, hstep]

/-! ### Claim C5 -/

/-- C5 counterexample: a 3-row dataset where the first cell of the second row is
"合计" but whose first row also matches a keyword ("Total"): the locator
returns row 0, not row 1, so the "regardless of which other cells also match"
part of the claim fails. -/
theorem C5_counterexample :
    identify_summary_row ⟨["A"], [[.str "Total"], [.str "合计"], [.str "x"]]⟩
        = some (some 0) ∧
      (some (some 0) : Option (Option Nat)) ≠ some (some 1) :=
  ⟨by decide, by decide⟩

/-- C5 (amended): on a non-empty dataset the locator succeeds and returns the
index of the first row, scanning rows in order, whose cell text contains a
keyword, or no index when no row qualifies; in particular a 3-row dataset
whose second row starts with "合计" yields index 1 provided no cell of the
first row matches a keyword. -/
theorem C5_summary_locator_first_match :
    (∀ d : Dataset, d.rows ≠ [] → d.cols ≠ [] →
      ∃ r, identify_summary_row d = some r ∧
        (∀ i, r = some i → i < d.rows.length ∧
          rowHasSummaryKeyword (d.rows.getD i []) = true ∧
          ∀ j, j < i → rowHasSummaryKeyword (d.rows.getD j []) = false) ∧
        (r = none → ∀ row ∈ d.rows, rowHasSummaryKeyword row = false)) ∧
    (∀ (cols : List String) (r0 rest r2 : List Cell),
      cols ≠ [] → rowHasSummaryKeyword r0 = false →
      identify_summary_row ⟨cols, [r0, Cell.str "合计" :: rest, r2]⟩ = some (some 1)) := by
  constructor
  · intro d hrows hcols
    have hne : datasetEmpty d = false := by
      unfold datasetEmpty
      cases hr : d.rows with
      | nil => exact absurd hr hrows
      | cons a t =>
        cases hc : d.cols with
        | nil => exact absurd hc hcols
        | cons b u => rfl
    refine ⟨findSummaryRow d.rows, ?_, ?_, ?_⟩
    · unfold identify_summary_row
      rw [if_neg (by simp [hne])]
    · intro i hi
      exact findSummaryRow_some d.rows i hi
    · intro hnone
      exact findSummaryRow_none d.rows hnone
  · intro cols r0 rest r2 hcols h0
    have hrow1 : rowHasSummaryKeyword (Cell.str "合计" :: rest) = true := by
      unfold rowHasSummaryKeyword
      rw [List.any_cons]
      have hhead : (summary_keywords.any (fun kw =>
          containsSub (strTrim (cellToStr (Cell.str "合计"))) kw)) = true := by decide
      rw [hhead]
      rfl
    have hne : datasetEmpty ⟨cols, [r0, Cell.str "合计" :: rest, r2]⟩ = false := by
      unfold datasetEmpty
      cases hc : cols with
      | nil => exact absurd hc hcols
      | cons b u => rfl
    unfold identify_summary_row
    rw [if_neg (by simp [hne])]
    have : findSummaryRow [r0, Cell.str "合计" :: rest, r2] = some 1 := by
      unfold findSummaryRow
      rw [if_neg (by simp [h0])]
      unfold findSummaryRow
      rw [if_pos hrow1]
      rfl
    rw [this]

/-- Witness for C5 at a concrete dataset with the summary row in the middle. -/
theorem C5_witness :
    identify_summary_row ⟨["A"], [[Cell.str "x"], [Cell.str "合计"], [Cell.str "y"]]⟩
      = some (some 1) :=
  C5_summary_locator_first_match.2 ["A"] [Cell.str "x"] [] [Cell.str "y"]
    (by decide) (by decide)

/-! ### Claim C9 -/

/-- C9: the single-column sum fails for an absent column, a non-numeric
column, or an all-null column (never reporting a zero average); otherwise it
reports count = row count, nullCount = number of null cells, sum = arithmetic
sum of the non-null values, and average = sum / (count - nullCount). -/
theorem C9_column_sum (d : Dataset) (name : String) :
    (name ∉ d.cols → get_column_sum d name = .error .columnNotFound) ∧
    (name ∈ d.cols → isNumericCol d name = false →
      get_column_sum d name = .error .notNumeric) ∧
    (name ∈ d.cols → isNumericCol d name = true →
      (∀ c ∈ columnValues d name, c = Cell.null) →
      get_column_sum d name = .error .noValidData) ∧
    (name ∈ d.cols → isNumericCol d name = true →
      (∃ c ∈ columnValues d name, c ≠ Cell.null) →
      ∃ stats : SumStats, get_column_sum d name = .ok stats ∧
        stats.total_count = d.rows.length ∧
        stats.null_count = (columnValues d name).countP (fun c => c == Cell.null) ∧
        stats.valid_count = stats.total_count - stats.null_count ∧
        stats.sum = ((columnValues d name).filterMap Cell.toNum).sum ∧
        stats.average = stats.sum / (stats.valid_count : ℚ)) := by
  refine ⟨?_, ?_, ?_, ?_⟩
  · intro hnm
    have hc : d.cols.contains name = false := by
      cases h : d.cols.contains name with
      | false => rfl
      | true => exact absurd (List.elem_iff.mp h) hnm
    simp only [get_column_sum]
    rw [if_pos hc]
  · intro hm hnn
    have hc : ¬(d.cols.contains name = false) := by
      simp [hm]
    simp only [get_column_sum]
    rw [if_neg hc, if_pos hnn]
  · intro hm hnum hall
    have hc : ¬(d.cols.contains name = false) := by
      simp [hm]
    have hnn : ¬(isNumericCol d name = false) := by simp [hnum]
    have hcount : (columnValues d name).countP (fun c => c == Cell.null)
        = (columnValues d name).length := by
      rw [List.countP_eq_length]
      intro a ha
      rw [hall a ha]
      rfl
    simp only [get_column_sum]
    rw [if_neg hc, if_neg hnn, hcount, Nat.sub_self]
    rfl
  · rintro hm hnum ⟨c, hcmem, hcne⟩
    have hc : ¬(d.cols.contains name = false) := by
      simp [hm]
    have hnn : ¬(isNumericCol d name = false) := by simp [hnum]
    have hle : (columnValues d name).countP (fun c => c == Cell.null)
        ≤ (columnValues d name).length := List.countP_le_length _
    have hneq : (columnValues d name).countP (fun c => c == Cell.null)
        ≠ (columnValues d name).length := by
      intro heq
      have hall := List.countP_eq_length.mp heq
      have := hall c hcmem
      exact hcne (by simpa using this)
    have hvalid : ¬((columnValues d name).length -
        (columnValues d name).countP (fun c => c == Cell.null) = 0) := by
      omega
    simp only [get_column_sum]
    rw [if_neg hc, if_neg hnn, if_neg hvalid]
    refine ⟨_, rfl, ?_, rfl, rfl, rfl, rfl⟩
    unfold columnValues colValuesOn
    rw [List.length_map]

/-- Witness for C9 on the example column [1, null, 3] given in the specification. -/
theorem C9_witness :
    ∃ stats : SumStats,
      get_column_sum ⟨["v"], [[Cell.num 1], [Cell.null], [Cell.num 3]]⟩ "v" = .ok stats ∧
        stats.total_count
          = (Dataset.mk ["v"] [[Cell.num 1], [Cell.null], [Cell.num 3]]).rows.length ∧
        stats.null_count
          = (columnValues ⟨["v"], [[Cell.num 1], [Cell.null], [Cell.num 3]]⟩ "v").countP
              (fun c => c == Cell.null) ∧
        stats.valid_count = stats.total_count - stats.null_count ∧
        stats.sum
          = ((columnValues ⟨["v"], [[Cell.num 1], [Cell.null], [Cell.num 3]]⟩ "v").filterMap
              Cell.toNum).sum ∧
        stats.average = stats.sum / (stats.valid_count : ℚ) :=
  (C9_column_sum ⟨["v"], [[Cell.num 1], [Cell.null], [Cell.num 3]]⟩ "v").2.2.2
    (by decide) (by decide) ⟨Cell.num 1, by decide, by decide⟩

/-! ### Claim C6 -/

theorem update_summary_row_on_cols (recalc : List String) (d : Dataset) :
    (update_summary_row_on recalc d).cols = d.cols := by
  unfold update_summary_row_on
  cases h : identify_summary_row d with
  | none => rfl
  | some o =>
    cases o with
    | none => rfl
    | some i => rfl

theorem update_summary_row_on_rows_length (recalc : List String) (d : Dataset) :
    (update_summary_row_on recalc d).rows.length = d.rows.length := by
  unfold update_summary_row_on
  cases h : identify_summary_row d with
  | none => rfl
  | some o =>
    cases o with
    | none => rfl
    | some i => simp

theorem identify_summary_row_some_some (d : Dataset) (i : Nat)
    (h : identify_summary_row d = some (some i)) :
    datasetEmpty d = false ∧ findSummaryRow d.rows = some i := by
  unfold identify_summary_row at h
  cases he : datasetEmpty d with
  | true => rw [if_pos he] at h; cases h
  | false =>
    rw [if_neg (by simp [he])] at h
    exact ⟨rfl, by injection h⟩

/-- C6: summary-row recalculation never fails; when no summary row is located
the dataset is returned completely unchanged, and when one is located at index
`i` only the cells of row `i` in present-and-numeric recalculation columns
change, each becoming the sum of its column over all rows except row `i`;
every other cell, every other row, the row count and the column list are
unchanged. -/
theorem C6_recalculation_frame (d : Dataset) (recalc : List String)
    (hwf : ∀ r ∈ d.rows, r.length = d.cols.length) :
    ((∀ i, identify_summary_row d ≠ some (some i)) → update_summary_row_on recalc d = d) ∧
    (∀ i, identify_summary_row d = some (some i) →
      (update_summary_row_on recalc d).cols = d.cols ∧
      (update_summary_row_on recalc d).rows.length = d.rows.length ∧
      (∀ j, j ≠ i → (update_summary_row_on recalc d).rows.getD j [] = d.rows.getD j []) ∧
      (∀ p, p < d.cols.length →
        ((update_summary_row_on recalc d).rows.getD i []).getD p Cell.null =
          if d.cols.getD p "" ∈ recalc ∧ isNumericCol d (d.cols.getD p "") = true then
            Cell.num (sumNonNull (colValuesOn (d.rows.eraseIdx i) d.cols (d.cols.getD p "")))
          else (d.rows.getD i []).getD p Cell.null)) ∧
    (∀ s : Session, s.processed_data = some d →
      (update_summary_row s recalc).1 = true) := by
  refine ⟨?_, ?_, ?_⟩
  · intro hno
    unfold update_summary_row_on
    cases h : identify_summary_row d with
    | none => rfl
    | some o =>
      cases o with
      | none => rfl
      | some i => exact absurd h (hno i)
  · intro i hi
    obtain ⟨hne, hfind⟩ := identify_summary_row_some_some d i hi
    obtain ⟨hlt, -, -⟩ := findSummaryRow_some d.rows i hfind
    have hgetD : d.rows.getD i [] = d.rows[i] := by
      rw [List.getD_eq_getElem?_getD, List.getElem?_eq_getElem hlt]
      rfl
    have hrowmem : d.rows.getD i [] ∈ d.rows := by
      rw [hgetD]
      exact List.getElem_mem hlt
    have hrowlen : (d.rows.getD i []).length = d.cols.length := hwf _ hrowmem
    have hupdate : update_summary_row_on recalc d =
        Dataset.mk d.cols
          (d.rows.set i
            ((recalc.filter (fun c => d.cols.contains c && isNumericCol d c)).foldl
              (fun row c => setCellByName d.cols row c
                (Cell.num (sumNonNull (colValuesOn (d.rows.eraseIdx i) d.cols c))))
              (d.rows.getD i []))) := by
      unfold update_summary_row_on
      rw [hi]
    refine ⟨by rw [hupdate], by rw [hupdate]; simp, ?_, ?_⟩
    · intro j hj
      rw [hupdate]
      show (d.rows.set i _).getD j [] = d.rows.getD j []
      rw [List.getD_eq_getElem?_getD, List.getD_eq_getElem?_getD,
        List.getElem?_set_ne (fun h => hj h.symm)]
      rw [← List.getD_eq_getElem?_getD]
    · intro p hp
      rw [hupdate]
      have hseti : ∀ row : List Cell, (d.rows.set i row).getD i [] = row := by
        intro row
        rw [List.getD_eq_getElem?_getD, List.getElem?_set_self hlt]
        rfl
      show ((d.rows.set i _).getD i []).getD p Cell.null = _
      rw [hseti]
      rw [foldl_setCellByName d.cols
        (fun c => Cell.num (sumNonNull (colValuesOn (d.rows.eraseIdx i) d.cols c)))
        (recalc.filter (fun c => d.cols.contains c && isNumericCol d c))
        (d.rows.getD i []) hrowlen p hp]
      have hcolmem : d.cols.getD p "" ∈ d.cols := by
        rw [List.getD_eq_getElem?_getD, List.getElem?_eq_getElem hp]
        exact List.getElem_mem hp
      by_cases hcond : d.cols.getD p "" ∈ recalc ∧ isNumericCol d (d.cols.getD p "") = true
      · have hmemupd : d.cols.getD p ""
            ∈ recalc.filter (fun c => d.cols.contains c && isNumericCol d c) := by
          rw [List.mem_filter]
          refine ⟨hcond.1, ?_⟩
          rw [Bool.and_eq_true]
          exact ⟨List.elem_iff.mpr hcolmem, hcond.2⟩
        rw [if_pos hmemupd, if_pos hcond]
      · have hmemupd : d.cols.getD p ""
            ∉ recalc.filter (fun c => d.cols.contains c && isNumericCol d c) := by
          rw [List.mem_filter]
          rintro ⟨h1, h2⟩
          rw [Bool.and_eq_true] at h2
          exact hcond ⟨h1, h2.2⟩
        rw [if_neg hmemupd, if_neg hcond]
  · intro s hs
    unfold update_summary_row
    rw [hs]

/-- Witness for C6 on a concrete dataset whose second row is the summary
row. -/
theorem C6_witness :
    (update_summary_row_on ["N"]
        ⟨["N", "L"], [[Cell.num 1, Cell.str "x"], [Cell.num 2, Cell.str "合计"]]⟩).cols
      = (Dataset.mk ["N", "L"] [[Cell.num 1, Cell.str "x"], [Cell.num 2, Cell.str "合计"]]).cols :=
  ((C6_recalculation_frame
      ⟨["N", "L"], [[Cell.num 1, Cell.str "x"], [Cell.num 2, Cell.str "合计"]]⟩
      ["N"] (by decide)).2.1 1 (by decide)).1

/-! ### Claim C1 -/

theorem applyRecalc_of_no_plan (s : Session) (h : s.columns_to_recalculate = []) :
    applyRecalc s = s := by
  unfold applyRecalc
  rw [h]
  simp

/-- C1: on a loaded session with no recalculation plan and a deletion plan
that is a strict subset of the dataset columns (every member present, at
least one column left over), processing succeeds and the processed dataset
holds exactly the non-deleted columns — `|columns| - |plan|` of them — with
the original row count and, for every kept column, the original per-row
values in the original row order. -/
theorem C1_deletion_apply (s : Session) (D : Dataset) (P : List String)
    (horig : s.original_data = some D)
    (hplan : s.columns_to_delete = P)
    (hrecalc : s.columns_to_recalculate = [])
    (hPn : P.Nodup) (hcn : D.cols.Nodup)
    (hsub : ∀ c ∈ P, c ∈ D.cols)
    (hstrict : ∃ c ∈ D.cols, c ∉ P) :
    (process_data s).1 = true ∧
    ∃ d', (process_data s).2.processed_data = some d' ∧
      d'.cols = D.cols.filter (fun c => !(P.contains c)) ∧
      d'.cols.length + P.length = D.cols.length ∧
      d'.rows.length = D.rows.length ∧
      ∀ c ∈ D.cols, c ∉ P → columnValues d' c = columnValues D c := by
  have hcount : (D.cols.filter (fun c => !(P.contains c))).length + P.length
      = D.cols.length := by
    have h1 := length_filter_add_length_filter_not (fun c => P.contains c) D.cols
    have h2 := length_filter_mem_eq hPn hcn hsub
    omega
  by_cases hPnil : P = []
  · subst hPnil
    have hisEmpty : ¬(s.columns_to_delete.isEmpty = false) := by
      rw [hplan]
      simp
    simp only [process_data, horig]
    rw [if_neg hisEmpty]
    rw [applyRecalc_of_no_plan _ (by simp [hrecalc])]
    refine ⟨rfl, D, rfl, ?_, ?_, rfl, ?_⟩
    · simp
    · simp
    · intro c _ _
      rfl
  · have hisEmpty : s.columns_to_delete.isEmpty = false := by
      rw [hplan]
      cases hp : P with
      | nil => exact absurd hp hPnil
      | cons a t => rfl
    obtain ⟨c0, hc0D, hc0P⟩ := hstrict
    have hremne : D.cols.filter (fun c => !(P.contains c)) ≠ [] := by
      intro hnil
      have hc0mem : c0 ∈ D.cols.filter (fun c => !(P.contains c)) := by
        rw [List.mem_filter]
        exact ⟨hc0D, by simpa using hc0P⟩
      rw [hnil] at hc0mem
      cases hc0mem
    have hPisEmpty : P.isEmpty = false := by
      cases hp : P with
      | nil => exact absurd hp hPnil
      | cons a t => rfl
    have hvalid : (validate_deletion s).1 = true := by
      simp only [validate_deletion, horig, hplan]
      rw [if_neg (by simp [hPisEmpty])]
      rw [if_neg ?hrem]
      case hrem =>
        cases hr : D.cols.filter (fun c => !(P.contains c)) with
        | nil => exact absurd hr hremne
        | cons a t => simp
      rw [if_pos ?hinv]
      case hinv =>
        rw [List.filter_eq_nil_iff.mpr ?_]
        · rfl
        · intro c hc
          have := hsub c hc
          simpa using List.elem_iff.mpr this
    simp only [process_data, horig, hplan]
    rw [if_pos (by rw [← hplan]; exact hisEmpty)]
    rw [if_neg (by simp [hvalid])]
    rw [applyRecalc_of_no_plan _ (by simpa using hrecalc)]
    refine ⟨rfl, selectColumns D (D.cols.filter (fun c => !(P.contains c))), rfl, rfl,
      hcount, selectColumns_rows_length _ _, ?_⟩
    intro c hcD hcP
    refine columnValues_selectColumns D _ c ?_
    rw [List.mem_filter]
    exact ⟨hcD, by simpa using hcP⟩

/-- Witness for C1 on a concrete two-column dataset with a one-column plan. -/
theorem C1_witness :
    (process_data
      { emptySession with
          original_data := some ⟨["A", "B"], [[Cell.num 1, Cell.str "x"]]⟩
          processed_data := some ⟨["A", "B"], [[Cell.num 1, Cell.str "x"]]⟩
          columns_to_delete := ["A"] }).1 = true :=
  (C1_deletion_apply _ ⟨["A", "B"], [[Cell.num 1, Cell.str "x"]]⟩ ["A"]
    rfl rfl rfl (by decide) (by decide) (by decide)
    ⟨"B", by decide, by decide⟩).1

/-! ### Claim C8 -/

/-- C8 counterexample: after loading a dataset and setting a recalculation
plan, `reset()` leaves `columns_to_recalculate` as it was — the source resets
the processed copy, the deletion plan and the history but never assigns the
recalculation plan, so "clears the plans" fails and a subsequent process can
still rewrite summary cells. -/
theorem C8_counterexample :
    (reset (set_columns_to_recalculate
        (load_data emptySession
          ⟨["N", "L"], [[Cell.num 1, Cell.str "x"], [Cell.num 2, Cell.str "合计"]]⟩).2
        ["N"]).2).columns_to_recalculate = ["N"] ∧
      (["N"] : List String) ≠ [] :=
  ⟨by decide, by decide⟩

/-- C8 (amended): `reset()` reverts the processed dataset to the original and
clears the deletion plan and the history, but retains the recalculation plan;
a subsequent `process_data` succeeds and deletes no columns (the processed
dataset keeps the columns and row count of the original), though with a retained
recalculation plan it may still rewrite summary-row cells. -/
theorem C8_reset (s : Session) (d : Dataset) (horig : s.original_data = some d) :
    (reset s).processed_data = some d ∧
    (reset s).columns_to_delete = [] ∧
    (reset s).processing_history = [] ∧
    (reset s).columns_to_recalculate = s.columns_to_recalculate ∧
    (process_data (reset s)).1 = true ∧
    ∃ d', (process_data (reset s)).2.processed_data = some d' ∧
      d'.cols = d.cols ∧ d'.rows.length = d.rows.length := by
  have happly : ∀ s' : Session,
      (∃ pd, s'.processed_data = some pd ∧ pd.cols = d.cols ∧ pd.rows.length = d.rows.length) →
      ∃ d', (applyRecalc s').processed_data = some d' ∧
        d'.cols = d.cols ∧ d'.rows.length = d.rows.length := by
    rintro s' ⟨pd, hpd, hc, hr⟩
    unfold applyRecalc
    by_cases he : s'.columns_to_recalculate.isEmpty = true
    · rw [if_pos he]
      exact ⟨pd, hpd, hc, hr⟩
    · rw [if_neg he]
      simp only [hpd]
      by_cases hrem :
          (s'.columns_to_recalculate.filter (fun c => pd.cols.contains c)).isEmpty = true
      · rw [if_pos hrem]
        exact ⟨pd, hpd, hc, hr⟩
      · rw [if_neg hrem]
        exact ⟨update_summary_row_on _ pd, rfl,
          by rw [update_summary_row_on_cols, hc],
          by rw [update_summary_row_on_rows_length, hr]⟩
  have hro : (reset s).original_data = some d := horig
  have hdel : (reset s).columns_to_delete = [] := rfl
  have hproc1 : (process_data (reset s)).1 = true ∧
      ∃ d', (process_data (reset s)).2.processed_data = some d' ∧
        d'.cols = d.cols ∧ d'.rows.length = d.rows.length := by
    simp only [process_data, hro, hdel]
    rw [if_neg (by simp)]
    exact ⟨rfl, happly _ ⟨d, rfl, rfl, rfl⟩⟩
  exact ⟨horig, rfl, rfl, rfl, hproc1.1, hproc1.2⟩

/-- Witness for C8 on a concrete session with a set recalculation plan. -/
theorem C8_witness :
    (reset (set_columns_to_recalculate
        (load_data emptySession
          ⟨["N", "L"], [[Cell.num 1, Cell.str "x"], [Cell.num 2, Cell.str "合计"]]⟩).2
        ["N"]).2).processed_data
      = some ⟨["N", "L"], [[Cell.num 1, Cell.str "x"], [Cell.num 2, Cell.str "合计"]]⟩ :=
  (C8_reset _ _ (by decide)).1

/-! ### Claim C4 -/

theorem applyRecalc_original (s : Session) :
    (applyRecalc s).original_data = s.original_data := by
  unfold applyRecalc
  split
  · rfl
  · split
    · rfl
    · dsimp only
      split
      · rfl
      · rfl

theorem process_data_original (s : Session) :
    (process_data s).2.original_data = s.original_data := by
  unfold process_data
  split
  · rfl
  · split
    · split
      · rfl
      · exact applyRecalc_original _
    · exact applyRecalc_original _

theorem applyOp_original_of_not_crossAssoc (s : Session) (op : Op)
    (h : op.isCrossAssoc = false) :
    (applyOp s op).original_data = s.original_data := by
  cases op with
  | setDelete columns =>
    show (set_columns_to_delete s columns).2.original_data = s.original_data
    unfold set_columns_to_delete
    split
    · rfl
    · rfl
  | setRecalc columns =>
    show (set_columns_to_recalculate s columns).2.original_data = s.original_data
    unfold set_columns_to_recalculate
    split
    · rfl
    · rfl
  | validate => rfl
  | preview n => rfl
  | process => exact process_data_original s
  | summaryQuery => rfl
  | columnSum name => rfl
  | identifySummary => rfl
  | updateSummary columns =>
    show (update_summary_row s columns).2.original_data = s.original_data
    unfold update_summary_row
    split
    · rfl
    · rfl
  | resetOp => rfl
  | loadCrossSheet sheets => rfl
  | crossAssoc a b => cases h

theorem applyOps_original (ops : List Op) :
    ∀ s : Session, (∀ op ∈ ops, op.isCrossAssoc = false) →
      (applyOps s ops).original_data = s.original_data := by
  induction ops with
  | nil => intro s _; rfl
  | cons op rest ih =>
    intro s hops
    show (applyOps (applyOp s op) rest).original_data = s.original_data
    rw [ih (applyOp s op) (fun o ho => hops o (List.mem_cons_of_mem op ho))]
    exact applyOp_original_of_not_crossAssoc s op (hops op (List.mem_cons_self op rest))

/-- C4 (amended): after a dataset is loaded, the original dataset is never
changed by setting plans, validation, preview, processing, summary queries,
summary-row updates, reset, or loading cross-sheet data - by any sequence of
session operations other than cross-sheet association; the association step is
the exception (see the counterexample), as it replaces `original_data` with
the enriched invoice sheet when the row counts coincide. -/
theorem C4_original_unchanged (s : Session) (D : Dataset)
    (hload : s.original_data = some D)
    (ops : List Op) (hops : ∀ op ∈ ops, op.isCrossAssoc = false) :
    get_original_data (applyOps s ops) = some D := by
  unfold get_original_data
  rw [applyOps_original ops s hops, hload]

/-- Witness for C4 on a concrete loaded session and operation sequence. -/
theorem C4_witness :
    get_original_data
      (applyOps
        { emptySession with
            original_data := some ⟨["A"], [[Cell.num 1]]⟩
            processed_data := some ⟨["A"], [[Cell.num 1]]⟩ }
        [Op.setDelete [], Op.validate, Op.preview 5, Op.process, Op.resetOp])
      = some ⟨["A"], [[Cell.num 1]]⟩ :=
  C4_original_unchanged _ ⟨["A"], [[Cell.num 1]]⟩ rfl
    [Op.setDelete [], Op.validate, Op.preview 5, Op.process, Op.resetOp]
    (by intro op hop; fin_cases hop <;> rfl)

/-- C4 counterexample: the claim includes cross-sheet association among the
operations that leave the original dataset unchanged, but running the
association on a loaded session whose invoice sheet has the same row
count as the original replaces `original_data` with the enriched sheet (an extra goods
column): `get_original_data` no longer returns the loaded dataset. -/
theorem C4_counterexample :
    get_original_data
        (applyOps
          { emptySession with
              original_data := some ⟨["发票号码"], [[Cell.str "1"]]⟩
              processed_data := some ⟨["发票号码"], [[Cell.str "1"]]⟩
              cross_sheet_data :=
                [("inv", ⟨["发票号码"], [[Cell.str "1"]]⟩),
                 ("det", ⟨["发票号码", "货物或应税劳务名称"], [[Cell.str "1", Cell.str "G"]]⟩)] }
          [Op.crossAssoc "inv" "det"])
        ≠ some ⟨["发票号码"], [[Cell.str "1"]]⟩ ∧
      get_original_data
        (applyOps
          { emptySession with
              original_data := some ⟨["发票号码"], [[Cell.str "1"]]⟩
              processed_data := some ⟨["发票号码"], [[Cell.str "1"]]⟩
              cross_sheet_data :=
                [("inv", ⟨["发票号码"], [[Cell.str "1"]]⟩),
                 ("det", ⟨["发票号码", "货物或应税劳务名称"], [[Cell.str "1", Cell.str "G"]]⟩)] }
          [Op.crossAssoc "inv" "det"])
        = some ⟨["发票号码", "货物或应税劳务名称"], [[Cell.str "1", Cell.str "G"]]⟩ :=
  ⟨by decide, by decide⟩

/-! ### Claim C3 -/

/-- C3 counterexample: the primary key "K1" does not match the detail key
cell " K1 " under the raw cell equality of the code (pandas `==`), so the map has
no entry for it, whereas the specified "normalize both sides to text and trim"
equality would match it and record "G". -/
theorem C3_counterexample :
    dictLookup (extract_goods_names ⟨["K"], [[Cell.str "K1"]]⟩
        ⟨["K", "V"], [[Cell.str " K1 ", Cell.str "G"]]⟩ "K" "V") "K1" = none ∧
      dictLookup (extract_goods_names_specTextEq ⟨["K"], [[Cell.str "K1"]]⟩
        ⟨["K", "V"], [[Cell.str " K1 ", Cell.str "G"]]⟩ "K" "V") "K1" = some "G" :=
  ⟨by decide, by decide⟩

theorem extract_goods_names_eq_fold (invoice_df detail_df : Dataset)
    (invoice_column goods_column : String)
    (hki : invoice_column ∈ invoice_df.cols)
    (hkd : invoice_column ∈ detail_df.cols)
    (hgd : goods_column ∈ detail_df.cols) :
    extract_goods_names invoice_df detail_df invoice_column goods_column =
      (dropNaUnique (columnValues invoice_df invoice_column)).foldl
        (fun acc k =>
          match (match detail_df.rows.find?
              (fun r => r.getD (detail_df.cols.indexOf invoice_column) Cell.null == k) with
            | none => none
            | some r =>
              if !(r.getD (detail_df.cols.indexOf goods_column) Cell.null == Cell.null)
                  && !(strTrim (cellToStr
                        (r.getD (detail_df.cols.indexOf goods_column) Cell.null)) == "") then
                some (strTrim (cellToStr (r.getD (detail_df.cols.indexOf goods_column) Cell.null)))
              else none) with
          | some v => dictInsert acc (cellToStr k) v
          | none => acc)
        [] := by
  unfold extract_goods_names
  rw [if_neg (by simpa using hki)]
  rw [if_neg (by simpa using hkd)]
  rw [if_neg (by simpa using hgd)]
  refine List.foldl_ext _ _ [] (fun acc k _ => ?_)
  cases hf : detail_df.rows.find?
      (fun r => r.getD (detail_df.cols.indexOf invoice_column) Cell.null == k) with
  | none => simp only [hf]
  | some r =>
    simp only [hf]
    by_cases hv : (!(r.getD (detail_df.cols.indexOf goods_column) Cell.null == Cell.null)
        && !(strTrim (cellToStr (r.getD (detail_df.cols.indexOf goods_column) Cell.null)) == ""))
        = true
    · rw [if_pos hv, if_pos hv]
    · rw [if_neg hv, if_neg hv]

/-- C3 (amended): with the join-key and value columns present, the lookup maps
the text of each distinct non-null key of the primary dataset (the keys being
the distinct non-null cells, in first-occurrence order) to the trimmed text of
the value cell of the first detail row, in detail row order, whose key cell
equals the key under raw cell equality (pandas `==`, no text normalization or
trimming on the comparison); a key with no matching detail row, or whose first
match has a null or empty-after-trim value, has no entry, and strings that are
the text of no key have no entry.  (The per-key description assumes the text
of the key determines it among the distinct keys; the source keys its Python
dict by `str(key)`.) -/
theorem C3_first_match_lookup (invoice_df detail_df : Dataset)
    (invoice_column goods_column : String)
    (hki : invoice_column ∈ invoice_df.cols)
    (hkd : invoice_column ∈ detail_df.cols)
    (hgd : goods_column ∈ detail_df.cols) :
    (∀ k ∈ dropNaUnique (columnValues invoice_df invoice_column),
      (∀ k' ∈ dropNaUnique (columnValues invoice_df invoice_column),
        cellToStr k' = cellToStr k → k' = k) →
      dictLookup (extract_goods_names invoice_df detail_df invoice_column goods_column)
          (cellToStr k) =
        (match detail_df.rows.find?
            (fun r => r.getD (detail_df.cols.indexOf invoice_column) Cell.null == k) with
         | none => none
         | some r =>
           if !(r.getD (detail_df.cols.indexOf goods_column) Cell.null == Cell.null)
               && !(strTrim (cellToStr
                     (r.getD (detail_df.cols.indexOf goods_column) Cell.null)) == "") then
             some (strTrim (cellToStr (r.getD (detail_df.cols.indexOf goods_column) Cell.null)))
           else none)) ∧
    (∀ s : String,
      (∀ k ∈ dropNaUnique (columnValues invoice_df invoice_column), cellToStr k ≠ s) →
      dictLookup (extract_goods_names invoice_df detail_df invoice_column goods_column) s
        = none) ∧
    (∀ k, k ∈ dropNaUnique (columnValues invoice_df invoice_column) ↔
      (k ∈ columnValues invoice_df invoice_column ∧ k ≠ Cell.null)) := by
  have heq := extract_goods_names_eq_fold invoice_df detail_df
    invoice_column goods_column hki hkd hgd
  refine ⟨?_, ?_, ?_⟩
  · intro k hk huniq
    rw [heq]
    rw [foldl_goods_lookup_of_mem _ _ [] k (dropNaUnique_nodup _) hk huniq]
    exact Option.or_none
  · intro s hne
    rw [heq]
    rw [foldl_goods_lookup_of_not_mem _ _ [] s hne]
    rfl
  · intro k
    exact mem_dropNaUnique _ k

/-- Witness for C3 on a concrete one-row primary/detail pair whose detail
value carries surrounding whitespace. -/
theorem C3_witness :
    dictLookup (extract_goods_names ⟨["K"], [[Cell.str "A"]]⟩
        ⟨["K", "V"], [[Cell.str "A", Cell.str " G "]]⟩ "K" "V") "A" = some "G" :=
  (((C3_first_match_lookup ⟨["K"], [[Cell.str "A"]]⟩
      ⟨["K", "V"], [[Cell.str "A", Cell.str " G "]]⟩ "K" "V"
      (by decide) (by decide) (by decide)).1
    (Cell.str "A") (by decide) (by decide)).trans (by decide))
